import Mathlib

/-!
Verification development for the pushsource repository.

The repository provides `src/pushsource/_impl/list_cmd.py` (the `pushsource-ls`
command) and `src/pushsource/__init__.py` (the public API surface).  The core
Source registry (`Source.get`, `Source.get_partial`, `Source.register_backend`)
is declared by `__init__.py` but its implementation is not part of the sources
available here; where a claim depends on it, the corresponding definition is
modelled from the spec and marked as such in its doc comment.

Embedding conventions:
- Python exceptions become an explicit error type `PushErr`; fallible code
  returns `Except PushErr _`.
- `sys.exit(52)` inside `load_conf` becomes `Except Nat Registry` with error
  value `52` (the exit status).
- Python's process-wide registry dict becomes an association list threaded
  explicitly; assignment is modelled as prepending, with lookup taking the
  first (most recent) match, which gives dict semantics (last writer wins).
- `run`'s writes to stdout, flushes and the context-manager release become an
  explicit event trace.
- Push items are opaque; formatters are functions from items to strings (or
  failing formatters, `Except PushErr String`).
-/

namespace Pushsource

/-! ## Addresses and errors -/

/-- A parsed source address: `token:locator[?key=value[&key=value...]]`. -/
structure Address where
  token : String
  locator : String
  params : List (String × String)
deriving Repr, DecidableEq

/-- The error taxonomy of the system, as one explicit type.  Python raises
exceptions; we return these values.  `keyError` models a Python `KeyError`
from a missing dict key, `osError` a failure to spawn a process,
`runtimeError` the `RuntimeError` raised by `format_python_black`. -/
inductive PushErr where
  | malformedAddress (s : String)
  | unknownBackend (token : String)
  | backendConstruction (detail : String)
  | iterationFailure (detail : String)
  | keyError (k : String)
  | osError (what : String)
  | runtimeError (code : Nat)
deriving Repr, DecidableEq

/-- Split a character list at the first occurrence of `c`; `none` when `c`
does not occur. -/
def splitFirst (c : Char) : List Char → Option (List Char × List Char)
  | [] => none
  | x :: xs =>
    if x = c then some ([], xs)
    else
      match splitFirst c xs with
      | none => none
      | some (a, b) => some (x :: a, b)

/-- Helper for `splitAll`: `acc` accumulates the current segment reversed. -/
def splitAllAux (c : Char) : List Char → List Char → List (List Char)
  | [], acc => [acc.reverse]
  | x :: xs, acc =>
    if x = c then acc.reverse :: splitAllAux c xs []
    else splitAllAux c xs (x :: acc)

/-- Split a character list at every occurrence of `c`. -/
def splitAll (c : Char) (l : List Char) : List (List Char) :=
  splitAllAux c l []

/-- Decode one `key=value` pair; a pair without `=` gets an empty value. -/
def parsePair (p : List Char) : String × String :=
  match splitFirst '=' p with
  | none => (String.mk p, "")
  | some (k, v) => (String.mk k, String.mk v)

/-- Decode the `?`-part of an address into key/value pairs. -/
def parseParams (s : List Char) : List (String × String) :=
  (splitAll '&' s).map parsePair

/-- Modelled from the spec: the URL grammar parser (spec section 4.2 / 6) of
the Source implementation, which is not among the available sources.  The
address is `token:locator[?params]`; absence of the `:` separator is a
`MalformedAddressError`. -/
def parseAddress (s : String) : Except PushErr Address :=
  match splitFirst ':' s.data with
  | none => .error (.malformedAddress s)
  | some (tok, rest) =>
    match splitFirst '?' rest with
    | none => .ok ⟨String.mk tok, String.mk rest, []⟩
    | some (loc, ps) => .ok ⟨String.mk tok, String.mk loc, parseParams ps⟩

/-! ## Registry, partial bindings, resolution -/

/-- An immutable snapshot pairing a parsed address with deferred invocation:
what `Source.get_partial` returns.  The factory itself stays opaque. -/
structure PartialBinding where
  addr : Address
deriving Repr, DecidableEq

/-- A registry value: either an opaque built-in backend factory, or a
pre-parameterized binding registered from a configuration file. -/
inductive Backend where
  | factory (id : Nat)
  | ofBinding (b : PartialBinding)
deriving Repr, DecidableEq

/-- The process-wide registry, modelled as an association list.  Registration
prepends; lookup takes the first match, so the most recent registration for a
token wins, exactly like assignment into a Python dict. -/
abbrev Registry := List (String × Backend)

/-- Look up a token in the registry; first (most recent) binding wins. -/
def lookupBackend : Registry → String → Option Backend
  | [], _ => none
  | (m, b) :: rest, n => if m = n then some b else lookupBackend rest n

/-- Shallow merge: defaults overridden by call-site parameters on collision. -/
def mergeParams (defaults overrides : List (String × String)) :
    List (String × String) :=
  defaults.filter (fun d => !(overrides.any (fun o => o.1 == d.1))) ++ overrides

namespace Source

/-- Modelled from the spec: `Source.register_backend` stores or overwrites the
binding for a token in the process-wide registry (spec section 4.1). -/
def register_backend (name : String) (b : Backend) (r : Registry) : Registry :=
  (name, b) :: r

/-- Modelled from the spec: `Source.get_partial` parses the address eagerly
(so malformed addresses fail immediately) but defers factory invocation,
returning a reusable pre-parameterized binding (spec section 4.1). -/
def get_partial_binding (url : String) : Except PushErr PartialBinding :=
  match parseAddress url with
  | .error e => .error e
  | .ok addr => .ok ⟨addr⟩

/-- The resolved result of `Source.get`: the backend found in the registry
plus the effective address (registered defaults merged with call-site
parameters). -/
structure Resolved where
  backend : Backend
  addr : Address
deriving Repr, DecidableEq

/-- Effective address after merging a registered partial binding's snapshot
with the call-site address (spec section 4.3): call-site parameters override
defaults, a call-site locator replaces the embedded one. -/
def effectiveAddress (b : Backend) (addr : Address) : Address :=
  match b with
  | .factory _ => addr
  | .ofBinding pb =>
    ⟨pb.addr.token,
     if addr.locator = "" then pb.addr.locator else addr.locator,
     mergeParams pb.addr.params addr.params⟩

/-- Modelled from the spec: `Source.get` — the resolution entry point (spec
section 4.4).  Parse the address, look the token up in the registry (failing
with `UnknownBackendError` carrying the token when absent), merge parameters,
and produce the scoped source handle.  Errors propagate unchanged. -/
def get (r : Registry) (url : String) : Except PushErr Resolved :=
  match parseAddress url with
  | .error e => .error e
  | .ok addr =>
    match lookupBackend r addr.token with
    | none => .error (.unknownBackend addr.token)
    | some b => .ok ⟨b, effectiveAddress b addr⟩

end Source

/-! ## Configuration loading (`load_conf`, `load_all_conf`) -/

/-- One entry of the `sources:` list of a configuration file, as the raw
mapping produced by the YAML parser. -/
abbrev RawEntry := List (String × String)

/-- `source["name"]` / `source["url"]`: dict subscript raising `KeyError`
when the key is absent. -/
def entryGet (entry : RawEntry) (k : String) : Except PushErr String :=
  match entry.find? (fun p => p.1 == k) with
  | some p => .ok p.2
  | none => .error (.keyError k)

/-- The work done for one configuration entry inside `load_conf`'s loop:
read `name` and `url`, eagerly parse the url via `Source.get_partial`, and
produce the registration that `Source.register_backend` will store.  Any
failure is the raised exception. -/
def entryReg (entry : RawEntry) : Except PushErr (String × Backend) :=
  match entryGet entry "name" with
  | .error e => .error e
  | .ok n =>
    match entryGet entry "url" with
    | .error e => .error e
    | .ok u =>
      match Source.get_partial_binding u with
      | .error e => .error e
      | .ok pb => .ok (n, Backend.ofBinding pb)

/-- The `for source in conf.get("sources") or []` loop of `load_conf`:
process entries in order, registering each one, stopping at the first
raised exception. -/
def loadConfEntries : List RawEntry → Registry → Except PushErr Registry
  | [], r => .ok r
  | entry :: rest, r =>
    match entryReg entry with
    | .error e => .error e
    | .ok (n, b) => loadConfEntries rest (Source.register_backend n b r)

/-- The registrations a list of configuration entries gives rise to, in file
order, failing at the first bad entry. -/
def entryRegs : List RawEntry → Except PushErr (List (String × Backend))
  | [] => .ok []
  | entry :: rest =>
    match entryReg entry with
    | .error e => .error e
    | .ok nb =>
      match entryRegs rest with
      | .error e => .error e
      | .ok l => .ok (nb :: l)

/-- `load_conf` of list_cmd.py, given the already-parsed `sources` list of
one configuration file: runs the registration loop; any exception is caught,
logged (logging is not modelled) and turned into `sys.exit(52)`, modelled as
`Except.error 52`. -/
def load_conf (sources : List RawEntry) (r : Registry) : Except Nat Registry :=
  match loadConfEntries sources r with
  | .ok r2 => .ok r2
  | .error _ => .error 52

/-- `load_all_conf` of list_cmd.py: loads `/etc/pushsource.conf` first and
`~/.config/pushsource.conf` second, skipping files that do not exist
(modelled by `Option`). -/
def load_all_conf (etcConf userConf : Option (List RawEntry)) (r : Registry) :
    Except Nat Registry :=
  match (match etcConf with
         | none => Except.ok r
         | some es => load_conf es r) with
  | .error c => .error c
  | .ok r1 =>
    match userConf with
    | none => .ok r1
    | some es => load_conf es r1

/-! ## The `run` loop: stdout trace and resource scope -/

/-- Observable events of `run`: a write to stdout, an explicit flush, and the
release of a source's resources at `with`-scope exit. -/
inductive Event where
  | wrote (s : String)
  | flushed
  | released
deriving Repr, DecidableEq

/-- A backend source as `run` observes it: a finite sequence of items, after
which pulling the next item either ends the sequence or raises.  (Per spec
section 4.5 every current backend produces a finite sequence.) -/
structure StubSource (α : Type) where
  items : List α
  pullErr : Option PushErr
deriving Repr, DecidableEq

/-- Result of the `for pushitem in source` loop body of `run`: the lines
written (and flushed) so far, the value of `itemcount`, and the formatter
error that aborted the loop, if any. -/
structure LoopResult where
  lines : List String
  count : Nat
  err : Option PushErr
deriving Repr, DecidableEq

/-- The `for pushitem in source` loop of `run`, over the items the source
yields: format each item, write the formatted line, flush, increment
`itemcount`; stop at the first formatter failure. -/
def runItems {α : Type} (fmt : α → Except PushErr String) :
    List α → LoopResult
  | [] => ⟨[], 0, none⟩
  | x :: xs =>
    match fmt x with
    | .error e => ⟨[], 0, some e⟩
    | .ok s =>
      let r := runItems fmt xs
      ⟨(s ++ "\n") :: r.lines, r.count + 1, r.err⟩

/-- The header line `run` writes after opening a source. -/
def headerLine (url : String) : String := "# Loaded source " ++ url ++ "\n"

/-- The trailer line `run` writes after draining a source. -/
def countLine (n : Nat) : String :=
  "# " ++ toString n ++ " item(s) found in source\n"

/-- Each loop iteration writes one line and flushes stdout. -/
def itemEvents (lines : List String) : List Event :=
  lines.flatMap (fun s => [Event.wrote s, Event.flushed])

/-- The `with Source.get(url) as source:` block of `run`, for one url, given
the stub source the resolution produced.  Mirrors list_cmd.py lines 137-150:
write the header, loop over the items (a formatter error or a failure pulling
the next item aborts the loop), write the count line only on normal
completion; the `with` statement runs the source's release exactly once at
scope exit in every case (spec section 4.5), after which any error
propagates. -/
def runSource {α : Type} (url : String) (fmt : α → Except PushErr String)
    (src : StubSource α) : List Event × Option PushErr :=
  let r := runItems fmt src.items
  match r.err with
  | some e =>
    (Event.wrote (headerLine url) :: itemEvents r.lines ++ [Event.released],
     some e)
  | none =>
    match src.pullErr with
    | some e =>
      (Event.wrote (headerLine url) :: itemEvents r.lines ++ [Event.released],
       some e)
    | none =>
      (Event.wrote (headerLine url) :: itemEvents r.lines ++
        [Event.wrote (countLine r.count), Event.released],
       none)

/-- The `for url in args.src_url` loop of `run` (configuration loading is
modelled separately by `load_all_conf`; `resolve` stands for
`Source.get(url)` producing an opened stub source, or raising).  A
resolution failure happens before the `with` scope is entered, so it
produces no release event; an error inside a scope stops the remaining
urls. -/
def run {α : Type} (fmt : α → Except PushErr String)
    (resolve : String → Except PushErr (StubSource α)) :
    List String → List Event × Option PushErr
  | [] => ([], none)
  | u :: rest =>
    match resolve u with
    | .error e => ([], some e)
    | .ok src =>
      match runSource u fmt src with
      | (evs, some e) => (evs, some e)
      | (evs, none) =>
        match run fmt resolve rest with
        | (evs2, err) => (evs ++ evs2, err)

/-! ## Formatters -/

/-- The attributes excluded from YAML output (list_cmd.py lines 39-41). -/
def EXCLUDED_ATTRIBUTES : List String := ["opener"]

/-- A push item as `format_yaml` observes it: its class name and the ordered
attribute dictionary `attr.asdict` produces (values already serialized). -/
structure YamlItem where
  typeName : String
  attrs : List (String × String)
deriving Repr, DecidableEq

/-- The filtered dictionary `attr.asdict(item, filter=...)` builds: every
attribute whose name is in `EXCLUDED_ATTRIBUTES` is dropped. -/
def asdictFiltered (item : YamlItem) : List (String × String) :=
  item.attrs.filter (fun a => !(EXCLUDED_ATTRIBUTES.contains a.1))

/-- `yaml.dump([{typeName: mapping}])`: a fixed serialization of the class
name and the mapping's entries in order. -/
def yamlDump (typeName : String) (attrs : List (String × String)) : String :=
  "- " ++ typeName ++ ":\n" ++
    String.join (attrs.map (fun kv => "    " ++ kv.1 ++ ": " ++ kv.2 ++ "\n"))

/-- `format_yaml` of list_cmd.py lines 83-91: dump a one-element list holding
`{type(item).__name__: filtered attribute dict}`. -/
def format_yaml (item : YamlItem) : String :=
  yamlDump item.typeName (asdictFiltered item)

/-- Python `repr` of a simple string: surrounded by single quote characters
(code point 39). -/
def pyStrRepr (s : String) : String :=
  String.singleton (Char.ofNat 39) ++ s ++ String.singleton (Char.ofNat 39)

/-- `format_python` of list_cmd.py lines 68-69, with the item's `repr`
passed explicitly since items are opaque. -/
def format_python {α : Type} (rp : α → String) (item : α) : String :=
  rp item ++ ","

/-- The environment `format_python_black` runs in: whether the `black`
executable can be spawned at all, and, when it can, the return code and
stdout it produces for a given input. -/
structure BlackEnv where
  present : Bool
  result : String → Nat × String

/-- `format_python_black` of list_cmd.py lines 72-80: pipe
`format_python item` through `black -c`; spawning fails when black is
absent, and a nonzero return code raises `RuntimeError`. -/
def format_python_black {α : Type} (env : BlackEnv) (rp : α → String)
    (item : α) : Except PushErr String :=
  let code := format_python rp item
  if env.present then
    match env.result code with
    | (rc, out) => if rc = 0 then .ok out else .error (.runtimeError rc)
  else .error (.osError "black")

/-- `default_format` of list_cmd.py lines 94-100: try black on the sample
string `"dummy"`; pick `"python-black"` on success, fall back to `"python"`
on any raised exception. -/
def default_format (env : BlackEnv) : String :=
  match format_python_black env pyStrRepr "dummy" with
  | .ok _ => "python-black"
  | .error _ => "python"

/-- Whether an `Except` result is a success. -/
def exceptOk {ε α : Type} : Except ε α → Bool
  | .ok _ => true
  | .error _ => false

/-- Number of release events in a trace. -/
def releasedCount : List Event → Nat
  | [] => 0
  | Event.released :: rest => releasedCount rest + 1
  | _ :: rest => releasedCount rest

/-! ## Helper lemmas -/

theorem releasedCount_append (a b : List Event) :
    releasedCount (a ++ b) = releasedCount a + releasedCount b := by
  induction a with
  | nil => simp [releasedCount]
  | cons x rest ih =>
    cases x <;> simp [releasedCount, ih]
    omega

theorem releasedCount_itemEvents (lines : List String) :
    releasedCount (itemEvents lines) = 0 := by
  induction lines with
  | nil => rfl
  | cons s rest ih => simp [itemEvents, releasedCount] at ih ⊢; exact ih

theorem itemEvents_length (lines : List String) :
    (itemEvents lines).length = 2 * lines.length := by
  induction lines with
  | nil => rfl
  | cons s rest ih => simp [itemEvents] at ih ⊢; omega

theorem runItems_ok {α : Type} (fmt : α → Except PushErr String)
    (g : α → String) (items : List α)
    (hfmt : ∀ x ∈ items, fmt x = .ok (g x)) :
    runItems fmt items = ⟨items.map (fun x => g x ++ "\n"), items.length, none⟩ := by
  induction items with
  | nil => rfl
  | cons x xs ih =>
    have hx : fmt x = .ok (g x) := hfmt x (by simp)
    have hxs := ih (fun y hy => hfmt y (by simp [hy]))
    simp [runItems, hx, hxs]

theorem entryReg_ok_inv (entry : RawEntry) (p : String × Backend)
    (h : entryReg entry = .ok p) :
    ∃ u pb, entryGet entry "name" = .ok p.1 ∧ entryGet entry "url" = .ok u ∧
      Source.get_partial_binding u = .ok pb ∧ p.2 = Backend.ofBinding pb := by
  unfold entryReg at h
  cases hn : entryGet entry "name" with
  | error e => simp [hn] at h
  | ok n =>
    cases hu : entryGet entry "url" with
    | error e => simp [hn, hu] at h
    | ok u =>
      cases hpb : Source.get_partial_binding u with
      | error e => simp [hn, hu, hpb] at h
      | ok pb =>
        simp only [hn, hu, hpb, Except.ok.injEq] at h
        subst h
        exact ⟨u, pb, rfl, rfl, hpb, rfl⟩

theorem entryReg_ok_of (entry : RawEntry) (n u : String) (pb : PartialBinding)
    (hn : entryGet entry "name" = .ok n) (hu : entryGet entry "url" = .ok u)
    (hpb : Source.get_partial_binding u = .ok pb) :
    entryReg entry = .ok (n, Backend.ofBinding pb) := by
  simp [entryReg, hn, hu, hpb]

theorem loadConfEntries_append (xs ys : List RawEntry) (r : Registry) :
    loadConfEntries (xs ++ ys) r =
      match loadConfEntries xs r with
      | .error e => .error e
      | .ok r1 => loadConfEntries ys r1 := by
  induction xs generalizing r with
  | nil => rfl
  | cons entry rest ih =>
    cases heq : entryReg entry with
    | error e => simp [loadConfEntries, heq]
    | ok p =>
      obtain ⟨n, b⟩ := p
      simp [loadConfEntries, heq, ih]

theorem loadConfEntries_lookup_of_unnamed (n : String) (xs : List RawEntry)
    (r r2 : Registry) (h : loadConfEntries xs r = .ok r2)
    (hn : ∀ e2 ∈ xs, ¬ entryGet e2 "name" = .ok n) :
    lookupBackend r2 n = lookupBackend r n := by
  induction xs generalizing r with
  | nil => cases h; rfl
  | cons entry rest ih =>
    cases heq : entryReg entry with
    | error e => simp [loadConfEntries, heq] at h
    | ok p =>
      obtain ⟨m, b⟩ := p
      simp only [loadConfEntries, heq] at h
      have hrest := ih _ h (fun e2 he2 => hn e2 (by simp [he2]))
      rw [hrest]
      obtain ⟨u, pb, hm, _⟩ := entryReg_ok_inv entry (m, b) heq
      have hmn : ¬ m = n := fun hEq => hn entry (by simp) (hEq ▸ hm)
      simp [Source.register_backend, lookupBackend, hmn]

theorem filter_agree {l1 l2 : List (String × String)}
    (h : List.Forall₂ (fun a b : String × String =>
      a.1 = b.1 ∧ (¬ a.1 = "opener" → a.2 = b.2)) l1 l2) :
    l1.filter (fun a => !(EXCLUDED_ATTRIBUTES.contains a.1)) =
      l2.filter (fun a => !(EXCLUDED_ATTRIBUTES.contains a.1)) := by
  induction h with
  | nil => rfl
  | @cons a b t1 t2 hab htail ih =>
    obtain ⟨h1, h2⟩ := hab
    have ih2 : List.filter (fun p : String × String =>
          !decide (p.1 = "opener")) t1 =
        List.filter (fun p : String × String =>
          !decide (p.1 = "opener")) t2 := by
      simpa [EXCLUDED_ATTRIBUTES] using ih
    by_cases hc : a.1 = "opener"
    · have hcb : b.1 = "opener" := by rw [← h1]; exact hc
      simp [List.filter_cons, EXCLUDED_ATTRIBUTES, hc, hcb, ih2]
    · have hv : a.2 = b.2 := h2 hc
      have hcb : ¬ b.1 = "opener" := by rw [← h1]; exact hc
      have hab2 : a = b := by
        cases a; cases b; simp_all
      simp [List.filter_cons, EXCLUDED_ATTRIBUTES, hc, hcb, hab2, ih2]

/-! ## Claims -/

/-- Claim C1: resolving an address whose token was never registered raises
`UnknownBackendError` carrying the offending token — it is an error, never a
silently returned empty Source. -/
theorem get_unknown_token_raises (r : Registry) (url : String) (addr : Address)
    (hp : parseAddress url = .ok addr)
    (hl : lookupBackend r addr.token = none) :
    Source.get r url = .error (.unknownBackend addr.token) := by
  simp [Source.get, hp, hl]

/-- Witness for C1 at the concrete address `nosuch:anything` and the empty
registry. -/
theorem get_unknown_token_raises_witness :
    parseAddress "nosuch:anything" = .ok ⟨"nosuch", "anything", []⟩ ∧
    lookupBackend [] "nosuch" = none ∧
    Source.get [] "nosuch:anything" = .error (.unknownBackend "nosuch") :=
  ⟨rfl, rfl,
   get_unknown_token_raises [] "nosuch:anything" ⟨"nosuch", "anything", []⟩ rfl rfl⟩

/-- Claim C2: for every url whose `with Source.get(url)` scope is entered,
the source is released exactly once at scope exit — on normal completion, on
a formatter error, and on an error pulling the next item alike. -/
theorem with_scope_releases_exactly_once {α : Type} (url : String)
    (fmt : α → Except PushErr String) (src : StubSource α) :
    releasedCount (runSource url fmt src).1 = 1 := by
  simp only [runSource]
  split
  · simp [releasedCount_append, releasedCount_itemEvents, releasedCount]
  · split
    · simp [releasedCount_append, releasedCount_itemEvents, releasedCount]
    · simp [releasedCount_append, releasedCount_itemEvents, releasedCount]

/-- Claim C4: errors raised during registration or resolution propagate
unchanged, and `Source.get_partial` parses eagerly: a malformed url in a
configuration entry makes the registration loop fail immediately with the
very parse error, inside `load_conf`, while resolution of the same url
propagates the identical error. -/
theorem registration_errors_eager_and_unchanged (r : Registry)
    (entry : RawEntry) (n url : String) (e : PushErr) (rest : List RawEntry)
    (hn : entryGet entry "name" = .ok n)
    (hu : entryGet entry "url" = .ok url)
    (hp : parseAddress url = .error e) :
    Source.get r url = .error e ∧
    loadConfEntries (entry :: rest) r = .error e := by
  refine ⟨by simp [Source.get, hp], ?_⟩
  simp [loadConfEntries, entryReg, hn, hu, Source.get_partial_binding, hp]

/-- Witness for C4 at a configuration entry whose url lacks the `:`
separator. -/
theorem registration_errors_eager_and_unchanged_witness :
    entryGet [("name", "x"), ("url", "nocolon")] "name" = .ok "x" ∧
    entryGet [("name", "x"), ("url", "nocolon")] "url" = .ok "nocolon" ∧
    parseAddress "nocolon" = .error (.malformedAddress "nocolon") ∧
    (Source.get [] "nocolon" = .error (.malformedAddress "nocolon") ∧
     loadConfEntries [[("name", "x"), ("url", "nocolon")]] [] =
       .error (.malformedAddress "nocolon")) :=
  ⟨rfl, rfl, rfl,
   registration_errors_eager_and_unchanged [] [("name", "x"), ("url", "nocolon")]
     "x" "nocolon" (.malformedAddress "nocolon") [] rfl rfl rfl⟩

/-- Claim C3: for a source producing a finite item sequence with no errors,
`run` writes exactly one formatted line per item, in production order, each
item passed to the formatter unchanged, followed by a count line whose number
is the sequence's length; the scope then releases. -/
theorem run_lines_match_items {α : Type} (url : String)
    (fmt : α → Except PushErr String) (g : α → String) (items : List α)
    (hfmt : ∀ x ∈ items, fmt x = .ok (g x)) :
    runSource url fmt ⟨items, none⟩ =
      (Event.wrote (headerLine url) ::
        itemEvents (items.map (fun x => g x ++ "\n")) ++
        [Event.wrote (countLine items.length), Event.released],
       none) := by
  simp [runSource, runItems_ok fmt g items hfmt]

/-- Witness for C3 on a stub source yielding `[1, 2, 3]`. -/
theorem run_lines_match_items_witness :
    (∀ x ∈ [1, 2, 3],
      (fun n : Nat => (Except.ok (toString n) : Except PushErr String)) x =
        .ok (toString x)) ∧
    runSource "stub:x" (fun n : Nat => .ok (toString n)) ⟨[1, 2, 3], none⟩ =
      (Event.wrote (headerLine "stub:x") ::
        itemEvents ([1, 2, 3].map (fun x => toString x ++ "\n")) ++
        [Event.wrote (countLine 3), Event.released],
       none) :=
  ⟨fun _ _ => rfl,
   run_lines_match_items "stub:x" (fun n : Nat => .ok (toString n)) toString
     [1, 2, 3] (fun _ _ => rfl)⟩

/-- Claim C7: when pulling item `n + 1` raises, the `n` lines already written
and flushed for items `1..n` are exactly those of the error-free run and are
unchanged; only the count line is missing and the error propagates after the
release. -/
theorem error_preserves_written_lines {α : Type} (url : String)
    (fmt : α → Except PushErr String) (g : α → String) (items : List α)
    (e : PushErr) (hfmt : ∀ x ∈ items, fmt x = .ok (g x)) :
    runSource url fmt ⟨items, some e⟩ =
      (Event.wrote (headerLine url) ::
        itemEvents (items.map (fun x => g x ++ "\n")) ++ [Event.released],
       some e) ∧
    (runSource url fmt ⟨items, some e⟩).1.take (2 * items.length + 1) =
      (runSource url fmt ⟨items, none⟩).1.take (2 * items.length + 1) := by
  have hri := runItems_ok fmt g items hfmt
  have hlen :
      (itemEvents (items.map (fun x => g x ++ "\n"))).length =
        2 * items.length := by
    rw [itemEvents_length, List.length_map]
  refine ⟨by simp [runSource, hri], ?_⟩
  simp only [runSource, hri]
  rw [List.cons_append, List.cons_append, List.take_succ_cons,
    List.take_succ_cons, ← hlen, List.take_left, List.take_left]

/-- Witness for C7 on a stub source yielding `[1, 2]` and then raising. -/
theorem error_preserves_written_lines_witness :
    (∀ x ∈ [1, 2],
      (fun n : Nat => (Except.ok (toString n) : Except PushErr String)) x =
        .ok (toString x)) ∧
    (runSource "stub:x" (fun n : Nat => .ok (toString n))
        ⟨[1, 2], some (.iterationFailure "net")⟩ =
      (Event.wrote (headerLine "stub:x") ::
        itemEvents ([1, 2].map (fun x => toString x ++ "\n")) ++
        [Event.released],
       some (.iterationFailure "net")) ∧
    (runSource "stub:x" (fun n : Nat => .ok (toString n))
        ⟨[1, 2], some (.iterationFailure "net")⟩).1.take (2 * 2 + 1) =
      (runSource "stub:x" (fun n : Nat => .ok (toString n))
        ⟨[1, 2], none⟩).1.take (2 * 2 + 1)) :=
  ⟨fun _ _ => rfl,
   error_preserves_written_lines "stub:x" (fun n : Nat => .ok (toString n))
     toString [1, 2] (.iterationFailure "net") (fun _ _ => rfl)⟩

/-- Claim C5: a successful `load_conf` pass extends the registry by exactly
one registration per configuration entry — the entry's `name` bound to the
deferred partial binding `Source.get_partial(url)` — and by nothing else:
every added value is a pre-parameterized `PartialBinding` snapshot, never an
invoked backend. -/
theorem load_conf_registers_only_bindings (sources : List RawEntry)
    (r r2 : Registry) (h : loadConfEntries sources r = .ok r2) :
    ∃ l, entryRegs sources = .ok l ∧ r2 = l.reverse ++ r ∧
      ∀ p ∈ l, ∃ entry ∈ sources, ∃ u pb,
        entryGet entry "name" = .ok p.1 ∧ entryGet entry "url" = .ok u ∧
        Source.get_partial_binding u = .ok pb ∧
        p.2 = Backend.ofBinding pb := by
  induction sources generalizing r with
  | nil =>
    cases h
    exact ⟨[], rfl, by simp, by simp⟩
  | cons entry rest ih =>
    cases heq : entryReg entry with
    | error e => simp [loadConfEntries, heq] at h
    | ok p =>
      obtain ⟨n, b⟩ := p
      simp only [loadConfEntries, heq] at h
      obtain ⟨l1, hregs, hr2, hprop⟩ := ih _ h
      refine ⟨(n, b) :: l1, by simp [entryRegs, heq, hregs], ?_, ?_⟩
      · simp [hr2, Source.register_backend]
      · intro p hp
        rcases List.mem_cons.mp hp with hp | hp
        · subst hp
          obtain ⟨u, pb, h1, h2, h3, h4⟩ := entryReg_ok_inv entry (n, b) heq
          exact ⟨entry, by simp, u, pb, h1, h2, h3, h4⟩
        · obtain ⟨entry2, he2, rest2⟩ := hprop p hp
          exact ⟨entry2, by simp [he2], rest2⟩

/-- Witness for C5 loading one `fedkoji` entry into the empty registry. -/
theorem load_conf_registers_only_bindings_witness :
    loadConfEntries [[("name", "fedkoji"), ("url", "koji:hub")]] [] =
      .ok [("fedkoji", Backend.ofBinding ⟨⟨"koji", "hub", []⟩⟩)] ∧
    ∃ l, entryRegs [[("name", "fedkoji"), ("url", "koji:hub")]] = .ok l ∧
      [("fedkoji", Backend.ofBinding ⟨⟨"koji", "hub", []⟩⟩)] = l.reverse ++ [] ∧
      ∀ p ∈ l, ∃ entry ∈ [[("name", "fedkoji"), ("url", "koji:hub")]],
        ∃ u pb, entryGet entry "name" = .ok p.1 ∧
          entryGet entry "url" = .ok u ∧
          Source.get_partial_binding u = .ok pb ∧
          p.2 = Backend.ofBinding pb :=
  ⟨rfl,
   load_conf_registers_only_bindings
     [[("name", "fedkoji"), ("url", "koji:hub")]] []
     [("fedkoji", Backend.ofBinding ⟨⟨"koji", "hub", []⟩⟩)] rfl⟩

/-- Claim C6: registration is last-writer-wins and `load_all_conf` loads
`/etc/pushsource.conf` before `~/.config/pushsource.conf`, so a token
registered by both ends up bound to the user configuration's url: whatever
the etc file registered for the token, after a successful `load_all_conf`
the lookup yields the user file's binding. -/
theorem user_conf_overrides_etc (etc user1 user2 : List RawEntry)
    (entry : RawEntry) (r r2 : Registry) (n u : String) (pb : PartialBinding)
    (hn : entryGet entry "name" = .ok n)
    (hu : entryGet entry "url" = .ok u)
    (hpb : Source.get_partial_binding u = .ok pb)
    (hafter : ∀ e2 ∈ user2, ¬ entryGet e2 "name" = .ok n)
    (hload : load_all_conf (some etc) (some (user1 ++ entry :: user2)) r =
      .ok r2) :
    lookupBackend r2 n = some (Backend.ofBinding pb) := by
  simp only [load_all_conf] at hload
  cases hetc : load_conf etc r with
  | error c => rw [hetc] at hload; cases hload
  | ok r1 =>
    rw [hetc] at hload
    simp only [load_conf] at hload
    cases huser : loadConfEntries (user1 ++ entry :: user2) r1 with
    | error e => rw [huser] at hload; cases hload
    | ok r3 =>
      rw [huser] at hload
      cases hload
      rw [loadConfEntries_append] at huser
      cases hu1 : loadConfEntries user1 r1 with
      | error e => rw [hu1] at huser; cases huser
      | ok rA =>
        rw [hu1] at huser
        simp only [loadConfEntries,
          entryReg_ok_of entry n u pb hn hu hpb] at huser
        rw [loadConfEntries_lookup_of_unnamed n user2 _ _ huser hafter]
        simp [Source.register_backend, lookupBackend]

/-- Witness for C6: the token `k` is registered by the etc file with url
`a:b` and by the user file with url `c:d`; both registrations succeed and
the lookup yields the user file's binding. -/
theorem user_conf_overrides_etc_witness :
    entryGet [("name", "k"), ("url", "c:d")] "name" = .ok "k" ∧
    entryGet [("name", "k"), ("url", "c:d")] "url" = .ok "c:d" ∧
    Source.get_partial_binding "c:d" = .ok ⟨⟨"c", "d", []⟩⟩ ∧
    (∀ e2 ∈ ([] : List RawEntry), ¬ entryGet e2 "name" = .ok "k") ∧
    load_all_conf (some [[("name", "k"), ("url", "a:b")]])
      (some ([] ++ [("name", "k"), ("url", "c:d")] :: [])) [] =
      .ok [("k", Backend.ofBinding ⟨⟨"c", "d", []⟩⟩),
           ("k", Backend.ofBinding ⟨⟨"a", "b", []⟩⟩)] ∧
    lookupBackend [("k", Backend.ofBinding ⟨⟨"c", "d", []⟩⟩),
                   ("k", Backend.ofBinding ⟨⟨"a", "b", []⟩⟩)] "k" =
      some (Backend.ofBinding ⟨⟨"c", "d", []⟩⟩) :=
  ⟨rfl, rfl, rfl, by simp, rfl,
   user_conf_overrides_etc [[("name", "k"), ("url", "a:b")]] [] []
     [("name", "k"), ("url", "c:d")] []
     [("k", Backend.ofBinding ⟨⟨"c", "d", []⟩⟩),
      ("k", Backend.ofBinding ⟨⟨"a", "b", []⟩⟩)]
     "k" "c:d" ⟨⟨"c", "d", []⟩⟩ rfl rfl rfl (by simp) rfl⟩

/-- Claim C8: an exception while registering a configuration file's entries
makes `load_conf` terminate the process with exit status 52, whatever
entries remain after the failing one (they are never registered — the very
same exit happens for every possible continuation of the file). -/
theorem load_conf_exits_52_on_bad_entry (pre : List RawEntry)
    (entry : RawEntry) (rest : List RawEntry) (r r1 : Registry) (e : PushErr)
    (hpre : loadConfEntries pre r = .ok r1)
    (hbad : entryReg entry = .error e) :
    load_conf (pre ++ entry :: rest) r = .error 52 := by
  have hfail : loadConfEntries (pre ++ entry :: rest) r = .error e := by
    rw [loadConfEntries_append, hpre]
    simp [loadConfEntries, hbad]
  simp [load_conf, hfail]

/-- Witness for C8: the second entry lacks a `url` key, so loading exits 52
even though a well-formed third entry follows. -/
theorem load_conf_exits_52_on_bad_entry_witness :
    loadConfEntries [[("name", "good"), ("url", "a:b")]] [] =
      .ok [("good", Backend.ofBinding ⟨⟨"a", "b", []⟩⟩)] ∧
    entryReg [("name", "x")] = .error (.keyError "url") ∧
    load_conf ([[("name", "good"), ("url", "a:b")]] ++
      [("name", "x")] :: [[("name", "y"), ("url", "c:d")]]) [] =
      .error 52 :=
  ⟨rfl, rfl,
   load_conf_exits_52_on_bad_entry [[("name", "good"), ("url", "a:b")]]
     [("name", "x")] [[("name", "y"), ("url", "c:d")]] []
     [("good", Backend.ofBinding ⟨⟨"a", "b", []⟩⟩)]
     (.keyError "url") rfl rfl⟩

/-- Claim C9: two push items that differ only in their `opener` attribute
serialize to identical YAML, because attributes named in
`EXCLUDED_ATTRIBUTES` are filtered out of the serialized dictionary and
never appear in it. -/
theorem yaml_hides_opener (i1 i2 : YamlItem)
    (ht : i1.typeName = i2.typeName)
    (hattrs : List.Forall₂ (fun a b : String × String =>
      a.1 = b.1 ∧ (¬ a.1 = "opener" → a.2 = b.2)) i1.attrs i2.attrs) :
    format_yaml i1 = format_yaml i2 ∧
    ∀ a ∈ asdictFiltered i1, ¬ a.1 ∈ EXCLUDED_ATTRIBUTES := by
  constructor
  · unfold format_yaml asdictFiltered
    rw [ht, filter_agree hattrs]
  · intro a ha
    unfold asdictFiltered at ha
    rw [List.mem_filter] at ha
    intro hmem
    have hc : EXCLUDED_ATTRIBUTES.contains a.1 = true := by
      simpa [List.elem_eq_mem] using hmem
    rw [hc] at ha
    exact absurd ha.2 (by simp)

/-- Witness for C9 on two file items differing only in their opener. -/
theorem yaml_hides_opener_witness :
    (YamlItem.mk "FilePushItem" [("name", "f"), ("opener", "o1")]).typeName =
      (YamlItem.mk "FilePushItem" [("name", "f"), ("opener", "o2")]).typeName ∧
    List.Forall₂ (fun a b : String × String =>
      a.1 = b.1 ∧ (¬ a.1 = "opener" → a.2 = b.2))
      [("name", "f"), ("opener", "o1")] [("name", "f"), ("opener", "o2")] ∧
    (format_yaml ⟨"FilePushItem", [("name", "f"), ("opener", "o1")]⟩ =
      format_yaml ⟨"FilePushItem", [("name", "f"), ("opener", "o2")]⟩ ∧
    ∀ a ∈ asdictFiltered ⟨"FilePushItem", [("name", "f"), ("opener", "o1")]⟩,
      ¬ a.1 ∈ EXCLUDED_ATTRIBUTES) :=
  ⟨rfl,
   List.Forall₂.cons ⟨rfl, fun _ => rfl⟩
     (List.Forall₂.cons ⟨rfl, fun h => absurd rfl h⟩ List.Forall₂.nil),
   yaml_hides_opener ⟨"FilePushItem", [("name", "f"), ("opener", "o1")]⟩
     ⟨"FilePushItem", [("name", "f"), ("opener", "o2")]⟩ rfl
     (List.Forall₂.cons ⟨rfl, fun _ => rfl⟩
       (List.Forall₂.cons ⟨rfl, fun h => absurd rfl h⟩ List.Forall₂.nil))⟩

/-- Claim C10: `default_format` returns `"python-black"` exactly when the
black invocation on the sample string succeeds (black present and exit code
zero), and returns `"python"` on any failure. -/
theorem default_format_tracks_black (env : BlackEnv) :
    (default_format env = "python-black" ↔
      exceptOk (format_python_black env pyStrRepr "dummy") = true) ∧
    default_format env =
      (if exceptOk (format_python_black env pyStrRepr "dummy") then
        "python-black" else "python") ∧
    (exceptOk (format_python_black env pyStrRepr "dummy") = true ↔
      (env.present = true ∧
        (env.result (format_python pyStrRepr "dummy")).1 = 0)) := by
  rcases hres : env.result (format_python pyStrRepr "dummy") with ⟨rc, out⟩
  by_cases hp : env.present = true
  · by_cases hrc : rc = 0
    · simp [default_format, format_python_black, exceptOk, hp, hres, hrc]
    · simp [default_format, format_python_black, exceptOk, hp, hres, hrc]
  · simp only [Bool.not_eq_true] at hp
    simp [default_format, format_python_black, exceptOk, hp, hres]

/-- Witness for C10 on an environment where black is present and exits 0. -/
theorem default_format_tracks_black_witness :
    (default_format ⟨true, fun _ => (0, "out")⟩ = "python-black" ↔
      exceptOk (format_python_black ⟨true, fun _ => (0, "out")⟩ pyStrRepr
        "dummy") = true) ∧
    default_format ⟨true, fun _ => (0, "out")⟩ =
      (if exceptOk (format_python_black ⟨true, fun _ => (0, "out")⟩ pyStrRepr
          "dummy") then "python-black" else "python") ∧
    (exceptOk (format_python_black ⟨true, fun _ => (0, "out")⟩ pyStrRepr
        "dummy") = true ↔
      ((true : Bool) = true ∧
        ((fun _ : String => ((0 : Nat), "out"))
          (format_python pyStrRepr "dummy")).1 = 0)) :=
  default_format_tracks_black ⟨true, fun _ => (0, "out")⟩

/-- Witness for C2 on a concrete stub source. -/
theorem with_scope_releases_exactly_once_witness :
    releasedCount (runSource "stub:x"
      (fun n : Nat => (Except.ok (toString n) : Except PushErr String))
      ⟨[1, 2], some (.iterationFailure "net")⟩).1 = 1 :=
  with_scope_releases_exactly_once "stub:x"
    (fun n : Nat => .ok (toString n)) ⟨[1, 2], some (.iterationFailure "net")⟩

end Pushsource
